import Mathlib

/-!
Verification of a minimal HTTP/3 demo server and client.

The server (main.rs) accepts QUIC connections, negotiates h3, and for each
connection runs a loop accepting request streams; each stream is handled by
an independent task that resolves the request, routes by exact path, and
writes status 200 with a fixed plain-text body.  The client (client.rs)
connects once and issues four GET requests strictly in sequence.

We give a shallow embedding of the control flow: the interaction with the
transport is modelled by explicit environments recording, for each awaited
operation, whether it succeeds, and the observable behaviour is a trace of
events.
-/

namespace H3Demo

/-- A resolved request, as used by the server: the code reads the method,
URI path, version and headers from the h3 request object, but the handler
only inspects the URI path. -/
structure Request where
  method : String
  path : String
  version : String
  headers : List (String × String)
deriving DecidableEq, Repr

/-- The structured response written by http::Response::builder in main.rs:
status plus header list (the body travels separately via send_data). -/
structure Response where
  status : Nat
  headers : List (String × String)
deriving DecidableEq, Repr

/-- The route table of main.rs lines 43-48: a match on req.uri().path()
with three exact-string arms and a catch-all. -/
def routeBody (path : String) : String :=
  if path = "/" then "Hello from http3 server"
  else if path = "/test" then "Hello from http3 test endpoint"
  else if path = "/health" then "hello from http3 health check"
  else "404 Not Found"

/-- The response object built in main.rs lines 50-54: status OK (200) and a
single Content-Type header; it does not depend on the request. -/
def mkResponse : Response :=
  { status := 200, headers := [("Content-Type", "text/plain")] }

/-- What the server computes for one resolved request: the structured
response and the body string chosen by the route table. -/
def handleRequest (req : Request) : Response × String :=
  (mkResponse, routeBody req.path)

/-- Observable events on one request stream, server side, in the order the
code issues them: send_response, send_data, finish. -/
inductive StreamEvent where
  | sendResponse (resp : Response)
  | sendData (body : String)
  | finish
deriving DecidableEq, Repr

/-- Terminal result of one exchange task. -/
inductive Outcome where
  | finished
  | failed
deriving DecidableEq, Repr

/-- Environment for one exchange: the result of resolve_request (none means
the await failed), and whether each of the three stream writes succeeds.
In the code each failure is an unwrap panic, which ends only the spawned
exchange task. -/
structure ExchangeEnv where
  resolveOk : Option Request
  sendRespOk : Bool
  sendDataOk : Bool
  finishOk : Bool
deriving DecidableEq, Repr

/-- The exchange task of main.rs lines 37-59: resolve the request, route it,
then send_response, send_data, finish, in that order, stopping at the first
failing step.  Returns the trace of attempted stream writes and the outcome. -/
def exchange (env : ExchangeEnv) : List StreamEvent × Outcome :=
  match env.resolveOk with
  | none => ([], Outcome.failed)
  | some req =>
    let resp := (handleRequest req).1
    let body := (handleRequest req).2
    if env.sendRespOk then
      if env.sendDataOk then
        if env.finishOk then
          ([StreamEvent.sendResponse resp, StreamEvent.sendData body,
            StreamEvent.finish], Outcome.finished)
        else
          ([StreamEvent.sendResponse resp, StreamEvent.sendData body,
            StreamEvent.finish], Outcome.failed)
      else
        ([StreamEvent.sendResponse resp, StreamEvent.sendData body],
         Outcome.failed)
    else
      ([StreamEvent.sendResponse resp], Outcome.failed)

/-- One result of h3_conn.accept() in the session loop of main.rs lines
34-63: a new request stream, a clean end of streams (Ok(None)), or a
transport error (Err). -/
inductive AcceptResult where
  | stream (env : ExchangeEnv)
  | closed
  | error
deriving Repr

/-- Where the session loop stands after consuming a list of accept results:
still looping (waiting for the next stream) or exited the loop. -/
inductive SessionEnd where
  | active
  | closed
deriving DecidableEq, Repr

/-- The per-connection loop of main.rs lines 34-63: each accepted stream is
handed to a spawned exchange and the loop continues at once; Ok(None) and
Err both break.  Returns the environments handed to exchanges, in order,
and the loop state. -/
def sessionLoop : List AcceptResult → List ExchangeEnv × SessionEnd
  | [] => ([], SessionEnd.active)
  | AcceptResult.stream env :: rest =>
    (env :: (sessionLoop rest).1, (sessionLoop rest).2)
  | AcceptResult.closed :: _ => ([], SessionEnd.closed)
  | AcceptResult.error :: _ => ([], SessionEnd.closed)

/-- A whole session: the loop plus the independent exchange tasks it
spawned, each run on its own stream environment. -/
def session (evs : List AcceptResult) :
    List (List StreamEvent × Outcome) × SessionEnd :=
  ((sessionLoop evs).1.map exchange, (sessionLoop evs).2)

/-- The shape of an accept result, forgetting the stream contents. -/
inductive AcceptShape where
  | stream
  | closed
  | error
deriving DecidableEq, Repr

/-- Forget the stream environment of an accept result. -/
def shapeOf : AcceptResult → AcceptShape
  | AcceptResult.stream _ => AcceptShape.stream
  | AcceptResult.closed => AcceptShape.closed
  | AcceptResult.error => AcceptShape.error

/-- The loop state computed from shapes alone. -/
def endOfShapes : List AcceptShape → SessionEnd
  | [] => SessionEnd.active
  | AcceptShape.stream :: rest => endOfShapes rest
  | AcceptShape.closed :: _ => SessionEnd.closed
  | AcceptShape.error :: _ => SessionEnd.closed

/-- The session loop state only depends on the shapes of the accept
results, never on the contents of any stream. -/
theorem sessionLoop_snd_eq_shapes (evs : List AcceptResult) :
    (sessionLoop evs).2 = endOfShapes (evs.map shapeOf) := by
  induction evs with
  | nil => rfl
  | cons ev rest ih =>
    cases ev <;> simp [sessionLoop, shapeOf, endOfShapes, ih]

/-- One inbound connection attempt as seen by the accept loop of main.rs
lines 26-28: either the handshake (conn.await) completes, carrying the
accept results the resulting session will see, or it fails. -/
inductive ConnAttempt where
  | handshakeOk (evs : List AcceptResult)
  | handshakeFail
deriving Repr

/-- The accept loop of main.rs lines 26-66: for each attempt it first
awaits the handshake; on success it spawns a session task and keeps
looping, but a handshake failure is propagated with the question-mark
operator, so the loop returns Err at once.  Result: the session inputs
spawned, in order, and true when the loop ended cleanly (endpoint closed)
rather than by a propagated handshake error. -/
def acceptLoop : List ConnAttempt → List (List AcceptResult) × Bool
  | [] => ([], true)
  | ConnAttempt.handshakeOk evs :: rest =>
    (evs :: (acceptLoop rest).1, (acceptLoop rest).2)
  | ConnAttempt.handshakeFail :: _ => ([], false)

/-- The fixed path list iterated by the client loop, client.rs line 44. -/
def clientPaths : List String := ["/", "/test", "/health", "/unknown"]

/-- One recv_data result on the client side: a body chunk, end of stream
(None), or an error. -/
inductive RecvStep where
  | chunk (s : String)
  | eos
  | fail
deriving DecidableEq, Repr

/-- Observable client events, in the order client.rs issues them for one
request: send_request opens a fresh stream and sends the request, finish
closes the client-to-server direction, then the response headers are
awaited and body chunks are read until end of stream. -/
inductive CEvent where
  | sendReq (method uri : String)
  | finishSend
  | gotStatus (s : Nat)
  | gotChunk (s : String)
  | bodyDone
deriving DecidableEq, Repr

/-- Environment for one client request: whether send_request, finish and
recv_response succeed, the status received, and the successive recv_data
results (an exhausted list reads as end of stream). -/
structure ReqEnv where
  sendOk : Bool
  finishOk : Bool
  respOk : Bool
  status : Nat
  recv : List RecvStep
deriving Repr

/-- The body-read loop of client.rs lines 59-62: recv_data until None,
accumulating chunks; an error stops the run.  Returns the events and
whether the loop reached end of stream. -/
def readBody : List RecvStep → List CEvent × Bool
  | [] => ([CEvent.bodyDone], true)
  | RecvStep.chunk s :: rest =>
    (CEvent.gotChunk s :: (readBody rest).1, (readBody rest).2)
  | RecvStep.eos :: _ => ([CEvent.bodyDone], true)
  | RecvStep.fail :: _ => ([], false)

/-- One iteration of the client loop, client.rs lines 44-64: build a GET
request for https://localhost plus the path, send it on a fresh stream,
finish, await the response, then read the whole body; every step uses the
question-mark operator, so the first failure ends the iteration with
failure. -/
def doRequest (path : String) (env : ReqEnv) : List CEvent × Bool :=
  let send := CEvent.sendReq "GET" ("https://localhost" ++ path)
  if env.sendOk then
    if env.finishOk then
      if env.respOk then
        (send :: CEvent.finishSend :: CEvent.gotStatus env.status ::
          (readBody env.recv).1, (readBody env.recv).2)
      else ([send, CEvent.finishSend], false)
    else ([send], false)
  else ([send], false)

/-- The client loop over a path list: requests run strictly one after the
other, and a failed request aborts the whole run (its error propagates out
of main), so later paths are never attempted. -/
def runPaths (envFor : String → ReqEnv) : List String → List CEvent × Bool
  | [] => ([], true)
  | p :: rest =>
    if (doRequest p (envFor p)).2 then
      ((doRequest p (envFor p)).1 ++ (runPaths envFor rest).1,
       (runPaths envFor rest).2)
    else ((doRequest p (envFor p)).1, false)

/-- Environment for one client run: whether connect and the h3 handshake
succeed, then one request environment per path. -/
structure ClientEnv where
  connectOk : Bool
  negotiateOk : Bool
  reqEnv : String → ReqEnv

/-- The client main of client.rs lines 30-64: connect, establish the h3
connection, then run the fixed path list; both setup steps use the
question-mark operator. -/
def clientMain (c : ClientEnv) : List CEvent × Bool :=
  if c.connectOk then
    if c.negotiateOk then runPaths c.reqEnv clientPaths
    else ([], false)
  else ([], false)

/-- The requests sent in a client trace, extracted in order. -/
def sentReqs : List CEvent → List (String × String)
  | [] => []
  | CEvent.sendReq m u :: rest => (m, u) :: sentReqs rest
  | CEvent.finishSend :: rest => sentReqs rest
  | CEvent.gotStatus _ :: rest => sentReqs rest
  | CEvent.gotChunk _ :: rest => sentReqs rest
  | CEvent.bodyDone :: rest => sentReqs rest

/-- Exchange environments with every stream write succeeding. -/
def writesOk (env : ExchangeEnv) : Prop :=
  env.sendRespOk = true ∧ env.sendDataOk = true ∧ env.finishOk = true

/-- Auxiliary: getLast? is preserved by consing onto a list that has a
last element. -/
theorem getLast?_cons_of_some {α : Type} {l : List α} {x y : α}
    (h : l.getLast? = some y) : (x :: l).getLast? = some y := by
  cases l with
  | nil => simp at h
  | cons a as => rw [List.getLast?_cons_cons]; exact h

/-- A body read that reaches end of stream ends its trace with bodyDone. -/
theorem readBody_true_last (l : List RecvStep) (h : (readBody l).2 = true) :
    (readBody l).1.getLast? = some CEvent.bodyDone := by
  induction l with
  | nil => rfl
  | cons s rest ih =>
    cases s with
    | chunk str =>
      have h2 : (readBody rest).2 = true := by simpa [readBody] using h
      simpa [readBody] using getLast?_cons_of_some (ih h2)
    | eos => rfl
    | fail => simp [readBody] at h

/-- sentReqs distributes over trace concatenation. -/
theorem sentReqs_append (a b : List CEvent) :
    sentReqs (a ++ b) = sentReqs a ++ sentReqs b := by
  induction a with
  | nil => rfl
  | cons e rest ih => cases e <;> simp [sentReqs, ih]

/-- The body-read loop sends no request. -/
theorem sentReqs_readBody (l : List RecvStep) :
    sentReqs (readBody l).1 = [] := by
  induction l with
  | nil => rfl
  | cons s rest ih =>
    cases s with
    | chunk str => simpa [readBody, sentReqs] using ih
    | eos => rfl
    | fail => rfl

/-- Each client loop iteration sends exactly one GET for its path. -/
theorem sentReqs_doRequest (p : String) (e : ReqEnv) :
    sentReqs (doRequest p e).1 = [("GET", "https://localhost" ++ p)] := by
  cases hs : e.sendOk <;> cases hf : e.finishOk <;> cases hr : e.respOk <;>
    simp [doRequest, hs, hf, hr, sentReqs, sentReqs_readBody]

/-- C1: for every request the server handles, the response has status 200,
and the body is exactly the route-table literal for the paths "/", "/test"
and "/health" (three pairwise distinct plain-text literals) and exactly
"404 Not Found" for every other path. -/
theorem handled_response_status_and_body (req : Request) :
    (handleRequest req).1.status = 200
    ∧ (req.path = "/" →
        (handleRequest req).2 = "Hello from http3 server")
    ∧ (req.path = "/test" →
        (handleRequest req).2 = "Hello from http3 test endpoint")
    ∧ (req.path = "/health" →
        (handleRequest req).2 = "hello from http3 health check")
    ∧ (req.path ≠ "/" → req.path ≠ "/test" → req.path ≠ "/health" →
        (handleRequest req).2 = "404 Not Found")
    ∧ ("Hello from http3 server" ≠ "Hello from http3 test endpoint"
        ∧ "Hello from http3 server" ≠ "hello from http3 health check"
        ∧ "Hello from http3 test endpoint" ≠ "hello from http3 health check") := by
  refine ⟨rfl, fun h => ?_, fun h => ?_, fun h => ?_,
    fun h1 h2 h3 => ?_, by decide, by decide, by decide⟩
  · simp [handleRequest, routeBody, h]
  · simp [handleRequest, routeBody, h]
  · simp [handleRequest, routeBody, h]
  · simp [handleRequest, routeBody, h1, h2, h3]

/-- Witness for C1 at two concrete requests. -/
theorem handled_response_status_and_body_inst :
    (handleRequest ⟨"GET", "/test", "HTTP/3", []⟩).2
      = "Hello from http3 test endpoint"
    ∧ (handleRequest ⟨"GET", "/nope", "HTTP/3", []⟩).2 = "404 Not Found" :=
  ⟨(handled_response_status_and_body ⟨"GET", "/test", "HTTP/3", []⟩).2.2.1 rfl,
   (handled_response_status_and_body ⟨"GET", "/nope", "HTTP/3", []⟩).2.2.2.2.1
     (by decide) (by decide) (by decide)⟩

/-- C8: route lookup is exact string match only; in particular a trailing
slash or a case change falls through to the not-found body. -/
theorem route_exact_match :
    (∀ p : String, p ≠ "/" → p ≠ "/test" → p ≠ "/health" →
      routeBody p = "404 Not Found")
    ∧ routeBody "/test/" = "404 Not Found"
    ∧ routeBody "/Test" = "404 Not Found" := by
  refine ⟨fun p h1 h2 h3 => ?_, by decide, by decide⟩
  simp [routeBody, h1, h2, h3]

/-- Witness for C8 at a concrete path. -/
theorem route_exact_match_inst : routeBody "/health/" = "404 Not Found" :=
  route_exact_match.1 "/health/" (by decide) (by decide) (by decide)

/-- C10: the response the server writes is a function of the request path
alone (any two requests with equal paths get identical status, headers and
body), and the headers are always the single Content-Type: text/plain. -/
theorem response_function_of_path :
    (∀ r1 r2 : Request, r1.path = r2.path →
      handleRequest r1 = handleRequest r2)
    ∧ (∀ r : Request, (handleRequest r).1.status = 200
        ∧ (handleRequest r).1.headers = [("Content-Type", "text/plain")]) := by
  refine ⟨fun r1 r2 h => ?_, fun r => ⟨rfl, rfl⟩⟩
  simp [handleRequest, h]

/-- Witness for C10: two requests differing in method, version and headers
but sharing a path get the same response. -/
theorem response_function_of_path_inst :
    handleRequest ⟨"GET", "/health", "HTTP/3", []⟩
      = handleRequest ⟨"POST", "/health", "HTTP/1.1", [("X", "y")]⟩ :=
  response_function_of_path.1 ⟨"GET", "/health", "HTTP/3", []⟩
    ⟨"POST", "/health", "HTTP/1.1", [("X", "y")]⟩ rfl

/-- C4: the session loop behaves as the state machine: an accepted stream
spawns an exchange and the loop continues at once (the loop state after is
that of the remaining inputs, independent of the exchange), while Ok(None)
and Err both exit to the terminal Closed state, ignoring any later input. -/
theorem session_state_machine :
    (∀ (env : ExchangeEnv) (rest : List AcceptResult),
      session (AcceptResult.stream env :: rest)
        = (exchange env :: (session rest).1, (session rest).2))
    ∧ (∀ rest, session (AcceptResult.closed :: rest) = ([], SessionEnd.closed))
    ∧ (∀ rest, session (AcceptResult.error :: rest) = ([], SessionEnd.closed)) := by
  refine ⟨fun env rest => ?_, fun rest => rfl, fun rest => rfl⟩
  simp [session, sessionLoop]

/-- C7: within one request stream the server writes in the fixed order
response headers, then body, then finish: every trace the exchange can
produce is an initial segment of that three-step sequence. -/
theorem exchange_write_order (env : ExchangeEnv) :
    ∃ k b, (exchange env).1
      = List.take k [StreamEvent.sendResponse mkResponse,
          StreamEvent.sendData b, StreamEvent.finish] := by
  cases h : env.resolveOk with
  | none => exact ⟨0, "", by simp [exchange, h]⟩
  | some req =>
    cases hs : env.sendRespOk
    · exact ⟨1, routeBody req.path, by simp [exchange, h, hs, handleRequest]⟩
    · cases hd : env.sendDataOk
      · exact ⟨2, routeBody req.path,
          by simp [exchange, h, hs, hd, handleRequest]⟩
      · exact ⟨3, routeBody req.path,
          by cases hf : env.finishOk <;>
            simp [exchange, h, hs, hd, hf, handleRequest]⟩

/-- C3: a per-request failure is isolated.  First, a resolution failure
abandons the stream without any response being written and ends only that
exchange.  Second, replacing the environment of one stream (for instance by
a failing one) leaves every sibling exchange result unchanged.  Third, the
session loop state never depends on the contents or fate of any stream. -/
theorem per_request_isolation :
    (∀ env : ExchangeEnv, env.resolveOk = none →
      exchange env = ([], Outcome.failed))
    ∧ (∀ (s : List ExchangeEnv) (i j : Nat) (env : ExchangeEnv), j ≠ i →
      ((s.set i env).map exchange).get? j = (s.map exchange).get? j)
    ∧ (∀ (evs : List AcceptResult) (i : Nat) (env env1 : ExchangeEnv),
      (session (evs.set i (AcceptResult.stream env))).2
        = (session (evs.set i (AcceptResult.stream env1))).2) := by
  refine ⟨fun env h => by simp [exchange, h],
    fun s i j env hij => ?_, fun evs i env env1 => ?_⟩
  · rw [List.map_set]
    exact List.get?_set_ne _ _ (Ne.symm hij)
  · show (sessionLoop _).2 = (sessionLoop _).2
    rw [sessionLoop_snd_eq_shapes, sessionLoop_snd_eq_shapes,
      List.map_set, List.map_set]
    rfl

/-- Witness for C3 at concrete environments: a failing resolve yields an
empty trace, and replacing the first of two streams by it leaves the second
exchange result unchanged. -/
theorem per_request_isolation_inst :
    exchange ⟨none, true, true, true⟩ = ([], Outcome.failed)
    ∧ (([⟨some ⟨"GET", "/", "HTTP/3", []⟩, true, true, true⟩,
         ⟨some ⟨"GET", "/test", "HTTP/3", []⟩, true, true, true⟩].set 0
          ⟨none, true, true, true⟩).map exchange).get? 1
      = ([⟨some ⟨"GET", "/", "HTTP/3", []⟩, true, true, true⟩,
          ⟨some ⟨"GET", "/test", "HTTP/3", []⟩, true, true, true⟩].map
            exchange).get? 1 :=
  ⟨per_request_isolation.1 ⟨none, true, true, true⟩ rfl,
   per_request_isolation.2.1 _ 0 1 ⟨none, true, true, true⟩ (by decide)⟩

/-- C9: two exchanges on the same connection whose requests carry the same
path produce byte-identical responses: the exchange results are equal, and
a session seeing the two streams back to back records the same trace twice. -/
theorem repeat_get_identical
    (env1 env2 : ExchangeEnv) (r1 r2 : Request) (rest : List AcceptResult)
    (h1 : env1.resolveOk = some r1) (h2 : env2.resolveOk = some r2)
    (hp : r1.path = r2.path) (w1 : writesOk env1) (w2 : writesOk env2) :
    exchange env1 = exchange env2
    ∧ (session (AcceptResult.stream env1 :: AcceptResult.stream env2 :: rest)).1
        = exchange env1 :: exchange env1 :: (session rest).1 := by
  obtain ⟨a1, b1, c1⟩ := w1
  obtain ⟨a2, b2, c2⟩ := w2
  have he : exchange env1 = exchange env2 := by
    simp [exchange, h1, h2, a1, b1, c1, a2, b2, c2, handleRequest, hp]
  exact ⟨he, by simp [session, sessionLoop, he]⟩

/-- Witness for C9: two GET requests for the root path, differing in
version and headers, get identical responses. -/
theorem repeat_get_identical_inst :
    exchange ⟨some ⟨"GET", "/", "HTTP/3", []⟩, true, true, true⟩
      = exchange ⟨some ⟨"GET", "/", "HTTP/2", [("a", "b")]⟩, true, true, true⟩ :=
  (repeat_get_identical
    ⟨some ⟨"GET", "/", "HTTP/3", []⟩, true, true, true⟩
    ⟨some ⟨"GET", "/", "HTTP/2", [("a", "b")]⟩, true, true, true⟩
    ⟨"GET", "/", "HTTP/3", []⟩ ⟨"GET", "/", "HTTP/2", [("a", "b")]⟩ []
    rfl rfl rfl ⟨rfl, rfl, rfl⟩ ⟨rfl, rfl, rfl⟩).1

/-- C2 counterexample: the accept loop does not isolate a handshake
failure.  With a failing attempt followed by a successful one, the loop
propagates the error at once: no session is spawned for the successful
attempt and the loop ends abnormally, contradicting the claim that the
acceptor remains listening and other attempts are unaffected. -/
theorem acceptor_not_isolated_cex :
    acceptLoop [ConnAttempt.handshakeFail, ConnAttempt.handshakeOk []]
      = ([], false) := rfl

/-- C2 amended: the accept loop awaits full handshake completion before a
session is spawned (a run of completed handshakes yields exactly those
sessions, in order, and a clean end), but the first handshake failure is
propagated out of the loop: only the attempts before it become sessions and
the loop terminates with an error, never reaching the attempts after it. -/
theorem acceptor_handshake_gate :
    (∀ pre : List (List AcceptResult),
      acceptLoop (pre.map ConnAttempt.handshakeOk) = (pre, true))
    ∧ (∀ (pre : List (List AcceptResult)) (post : List ConnAttempt),
      acceptLoop (pre.map ConnAttempt.handshakeOk
          ++ ConnAttempt.handshakeFail :: post) = (pre, false)) := by
  constructor
  · intro pre
    induction pre with
    | nil => rfl
    | cons e rest ih => simp [acceptLoop, ih]
  · intro pre post
    induction pre with
    | nil => rfl
    | cons e rest ih => simp [acceptLoop, ih]

/-- C5: when every step succeeds, the client run is exactly the traces of
the four fixed requests, concatenated in order "/", "/test", "/health",
"/unknown"; the requests it sends are exactly the four GETs against
https://localhost plus the path; and every successful request trace opens
with its send (on a fresh stream) and closes with the body read to end of
stream, so each request fully completes before the next begins. -/
theorem client_fixed_sequence (c : ClientEnv)
    (hc : c.connectOk = true) (hn : c.negotiateOk = true)
    (hr : ∀ p, (doRequest p (c.reqEnv p)).2 = true) :
    clientMain c
      = ((doRequest "/" (c.reqEnv "/")).1
          ++ (doRequest "/test" (c.reqEnv "/test")).1
          ++ (doRequest "/health" (c.reqEnv "/health")).1
          ++ (doRequest "/unknown" (c.reqEnv "/unknown")).1, true)
    ∧ sentReqs (clientMain c).1
      = [("GET", "https://localhost/"), ("GET", "https://localhost/test"),
         ("GET", "https://localhost/health"),
         ("GET", "https://localhost/unknown")]
    ∧ (∀ (p : String) (e : ReqEnv), (doRequest p e).2 = true →
        (doRequest p e).1.head?
            = some (CEvent.sendReq "GET" ("https://localhost" ++ p))
        ∧ (doRequest p e).1.getLast? = some CEvent.bodyDone) := by
  have hmain : clientMain c
      = ((doRequest "/" (c.reqEnv "/")).1
          ++ (doRequest "/test" (c.reqEnv "/test")).1
          ++ (doRequest "/health" (c.reqEnv "/health")).1
          ++ (doRequest "/unknown" (c.reqEnv "/unknown")).1, true) := by
    simp [clientMain, hc, hn, clientPaths, runPaths,
      hr "/", hr "/test", hr "/health", hr "/unknown", List.append_assoc]
  refine ⟨hmain, ?_, fun p e he => ?_⟩
  · rw [hmain]
    simp [sentReqs_append, sentReqs_doRequest]
  · cases hs : e.sendOk <;> cases hf : e.finishOk <;> cases hrr : e.respOk <;>
      simp [doRequest, hs, hf, hrr] at he ⊢
    exact getLast?_cons_of_some (readBody_true_last e.recv he)

/-- Witness for C5: a concrete all-successful client environment. -/
theorem client_fixed_sequence_inst :
    sentReqs (clientMain
      ⟨true, true, fun _ => ⟨true, true, true, 200,
        [RecvStep.chunk "x", RecvStep.eos]⟩⟩).1
      = [("GET", "https://localhost/"), ("GET", "https://localhost/test"),
         ("GET", "https://localhost/health"),
         ("GET", "https://localhost/unknown")] :=
  (client_fixed_sequence
    ⟨true, true, fun _ => ⟨true, true, true, 200,
      [RecvStep.chunk "x", RecvStep.eos]⟩⟩
    rfl rfl (fun _ => rfl)).2.1

/-- C6: any client-side failure aborts the entire run.  A failed connect or
a failed h3 handshake ends the run with no request issued; a failed request
ends the run at that request, the remaining paths never being attempted;
and within one request a failed send or a failed response receive stops
before any later step, with no retry anywhere. -/
theorem client_aborts_on_failure :
    (∀ c : ClientEnv, c.connectOk = false → clientMain c = ([], false))
    ∧ (∀ c : ClientEnv, c.negotiateOk = false → clientMain c = ([], false))
    ∧ (∀ (envFor : String → ReqEnv) (p : String) (rest : List String),
        (doRequest p (envFor p)).2 = false →
        runPaths envFor (p :: rest) = ((doRequest p (envFor p)).1, false))
    ∧ (∀ (p : String) (e : ReqEnv), e.sendOk = false →
        doRequest p e
          = ([CEvent.sendReq "GET" ("https://localhost" ++ p)], false))
    ∧ (∀ (p : String) (e : ReqEnv), e.sendOk = true → e.finishOk = true →
        e.respOk = false →
        doRequest p e
          = ([CEvent.sendReq "GET" ("https://localhost" ++ p),
              CEvent.finishSend], false)) := by
  refine ⟨fun c h => by simp [clientMain, h], fun c h => ?_,
    fun envFor p rest h => by simp [runPaths, h],
    fun p e h => by simp [doRequest, h],
    fun p e hs hf hrr => by simp [doRequest, hs, hf, hrr]⟩
  cases hc : c.connectOk <;> simp [clientMain, hc, h]

/-- Witness for C6: a client whose connect fails runs nothing. -/
theorem client_aborts_on_failure_inst :
    clientMain ⟨false, true, fun _ => ⟨true, true, true, 200, []⟩⟩
      = ([], false) :=
  client_aborts_on_failure.1
    ⟨false, true, fun _ => ⟨true, true, true, 200, []⟩⟩ rfl

end H3Demo
